import Mathlib

/-
Verification of the etomon-location resolution core (GeoResolver.ts and
EtomonLocation.ts), shallowly embedded in Lean 4.  JavaScript objects of the
query/record shape are modelled by the structure `Loc` (absent or undefined
fields are `none`); JavaScript values appearing as identifiers and cache keys
are modelled by `JVal`.
-/

namespace EtomonLocation

/-- A JSON-like JavaScript value, used for identifiers and cache keys.
Arrays and objects are represented as cons chains (`arrCons`/`objCons`), so
the type is plainly recursive and its decidable equality reduces in the
kernel; `objOfList` and `arrOfList` build them from ordered field lists. -/
inductive JVal where
  | str (s : String)
  | num (n : Int)
  | boolean (b : Bool)
  | arrNil
  | arrCons (hd : JVal) (tl : JVal)
  | objNil
  | objCons (k : String) (v : JVal) (tl : JVal)
deriving DecidableEq

/-- Build an array value from a list of elements. -/
def JVal.arrOfList : List JVal -> JVal
  | [] => .arrNil
  | x :: xs => .arrCons x (JVal.arrOfList xs)

/-- Build an object value from an ordered field list. -/
def JVal.objOfList : List (String × JVal) -> JVal
  | [] => .objNil
  | (k, v) :: xs => .objCons k v (JVal.objOfList xs)

/-- Read an object value back as its ordered field list. -/
def JVal.toObjList : JVal -> Option (List (String × JVal))
  | .objNil => some []
  | .objCons k v tl => (JVal.toObjList tl).map (fun xs => (k, v) :: xs)
  | _ => none

/-- Read an array value back as its element list. -/
def JVal.toArrList : JVal -> Option (List JVal)
  | .arrNil => some []
  | .arrCons x tl => (JVal.toArrList tl).map (fun xs => x :: xs)
  | _ => none

/-- A GeoJSON-ish location payload: `coordinates` is the `[longitude,
latitude]` array (numbers modelled as `Int`; no claim depends on float
arithmetic), `maxDistance`/`minDistance` are the radius bounds, `ptType`
models the JavaScript `type` field. -/
structure GeoPoint where
  coordinates : List Int
  maxDistance : Option Int := none
  minDistance : Option Int := none
  ptType : Option String := none
deriving DecidableEq

/-- The dynamic query-or-record shape (`EtomonLocationQueryOrResult`): every
field of both `EtomonLocationQuery` and `EtomonLocation`, all optional.
Identifier fields hold `JVal` because the IP strategy stores a cache-key hash
there, modelled as the hashed structure itself. `languages` entries are
optional because `_.get(languageData[l], 'name')` can put `undefined` in the
array. -/
structure Loc where
  id : Option JVal := none
  _id : Option JVal := none
  locality : Option String := none
  administrativeLevel1 : Option String := none
  administrativeLevel2 : Option String := none
  country : Option String := none
  fromCache : Option Bool := none
  location : Option GeoPoint := none
  region : Option String := none
  address : Option String := none
  ipAddress : Option String := none
  resolveIpWithGeo : Option Bool := none
  timezone : Option String := none
  languages : Option (List (Option String)) := none
  phoneCode : Option String := none
  countryName : Option String := none
  safeLabel : Option String := none
deriving DecidableEq

/-- JavaScript truthiness of an optional string (absent and `""` are falsy). -/
def truthyS : Option String → Bool
  | some s => s != ""
  | none => false

/-- JavaScript truthiness of a `JVal`. -/
def jtruthy : JVal → Bool
  | .str s => s != ""
  | .num n => n != 0
  | .boolean b => b
  | .arrNil => true
  | .arrCons _ _ => true
  | .objNil => true
  | .objCons _ _ _ => true

/-- JavaScript truthiness of an optional `JVal`. -/
def truthyJ : Option JVal → Bool
  | some v => jtruthy v
  | none => false

/-- JavaScript truthiness of an optional boolean. -/
def truthyB : Option Bool → Bool
  | some b => b
  | none => false

/-- JavaScript truthiness of an optional number. -/
def truthyI : Option Int → Bool
  | some n => n != 0
  | none => false

/-- JavaScript `a || b` on optional strings. -/
def jsOrS (a b : Option String) : Option String :=
  if truthyS a then a else b

/-- JavaScript `a || b` on optional `JVal`s. -/
def jsOrJ (a b : Option JVal) : Option JVal :=
  if truthyJ a then a else b

/-- JavaScript `a || b` where `a` is an optional number and `b` a number. -/
def jsOrNum (a : Option Int) (b : Int) : Int :=
  match a with
  | some n => if n != 0 then n else b
  | none => b

/-- Lowercase a string (`String.toLowerCase`), implemented structurally over
the character list so that evaluation reduces in the kernel. -/
def jsToLower (s : String) : String :=
  ⟨s.data.map Char.toLower⟩

/-- JavaScript `Array.join` with a separator, implemented structurally. -/
def joinSep (sep : String) : List String → String
  | [] => ""
  | [x] => x
  | x :: xs => x ++ sep ++ joinSep sep xs

/-- `indexOf(pat) !== -1`: substring containment, implemented structurally. -/
def strContainsSubAux (pat : List Char) : List Char → Bool
  | [] => pat.isPrefixOf []
  | c :: t => pat.isPrefixOf (c :: t) || strContainsSubAux pat t

/-- `s.indexOf(pat) !== -1`. -/
def strContainsSub (s pat : String) : Bool :=
  strContainsSubAux pat.data s.data

/-- `s.replace(pat, '')` with a string pattern: remove the first occurrence. -/
def replaceFirstAux (pat : List Char) : List Char → List Char
  | [] => []
  | c :: t => if pat.isPrefixOf (c :: t) then (c :: t).drop pat.length else c :: replaceFirstAux pat t

/-- `s.replace(pat, '')`: JavaScript string replace drops only the first
occurrence. -/
def replaceFirst (s pat : String) : String :=
  ⟨replaceFirstAux pat.data s.data⟩

/-- `Number(s)` restricted to non-negative decimal digit strings; anything
else is `NaN`, modelled as `none`. -/
def jsParseNat (s : String) : Option Nat :=
  if s.data.all Char.isDigit && !s.data.isEmpty then
    some (s.data.foldl (fun a c => a * 10 + (c.toNat - 48)) 0)
  else none

/-- Lexicographic comparison of character lists by code point, the order the
default JavaScript sort uses on (ASCII) strings. -/
def charListLt : List Char → List Char → Bool
  | [], [] => false
  | [], _ :: _ => true
  | _ :: _, [] => false
  | a :: as, b :: bs =>
      if a.toNat < b.toNat then true
      else if b.toNat < a.toNat then false
      else charListLt as bs

/-- String comparison used by the default JavaScript sort. -/
def strLt (a b : String) : Bool := charListLt a.data b.data

/-- One decimal digit as a character. -/
def digitChar (n : Nat) : Char := Char.ofNat (48 + n)

/-- The decimal digits of a number, with explicit fuel so the definition is
structural. -/
def natDigits : Nat → Nat → List Char
  | 0, _ => []
  | fuel + 1, n => if n < 10 then [digitChar n] else natDigits fuel (n / 10) ++ [digitChar (n % 10)]

/-- Decimal rendering of a natural number. -/
def natToStr (n : Nat) : String := ⟨natDigits (n + 1) n⟩

/-- Decimal rendering of an integer (template-literal interpolation). -/
def intToStr (i : Int) : String :=
  if i < 0 then "-" ++ natToStr i.natAbs else natToStr i.natAbs

/-- Error values thrown by the embedded code. -/
inductive Err where
  | locationQueryError
  | couldNotResolveLocation
  | typeError
deriving DecidableEq

/-- The shared part of `LabelLocation` (EtomonLocation.ts): join the truthy
fields among `locality || administrativeLevel2`, `administrativeLevel1` and
`countryName` with a comma, falling back to the truthy `address` or `null`. -/
def labelCore (locality adminLevel1 adminLevel2 countryName address : Option String) :
    Option String :=
  let parts := [jsOrS locality adminLevel2, adminLevel1, countryName].filterMap
    (fun o => if truthyS o then o else none)
  if parts.length > 0 then some (joinSep ", " parts)
  else if truthyS address then address else none

/-- `LabelLocation` (EtomonLocation.ts): reading `location.locality` of a
null/undefined argument throws a TypeError, modelled as `Except.error`. -/
def LabelLocation : Option Loc → Except Unit (Option String)
  | none => .error ()
  | some l =>
      .ok (labelCore l.locality l.administrativeLevel1 l.administrativeLevel2
        l.countryName l.address)

/-- `LabelLocationSafe` (EtomonLocation.ts): `LabelLocation(location) || ""`. -/
def LabelLocationSafe (location : Option Loc) : Except Unit String :=
  match LabelLocation location with
  | .error e => .error e
  | .ok v => .ok (if truthyS v then v.getD "" else "")

/-- Models the ccTLD table of the external `country-code-lookup` package
(`byIso(country) && byIso(country).internet`); unknown codes give `none`. -/
def byIsoInternet (country : String) : Option String :=
  if country = "US" then some "US"
  else if country = "GB" then some "UK"
  else if country = "FR" then some "FR"
  else none

/-- Modelled from the spec: the static country reference table
(`src/api/common/CountryData.ts` is not under src/), mapping an ISO country
code to its languages, calling code and English name (spec sec. 6, "Static
reference tables"). -/
structure CountryInfo where
  languages : List String
  phone : String
  name : String
deriving DecidableEq

/-- Modelled from the spec: `countryData` lookup, a fixed read-only table. -/
def countryData : String → Option CountryInfo := fun c =>
  if c = "US" then some ⟨["en"], "+1", "United States"⟩
  else if c = "FR" then some ⟨["fr"], "+33", "France"⟩
  else none

/-- Modelled from the spec: `languageData` lookup, language code to English
display name, a fixed read-only table. -/
def languageData : String → Option String := fun l =>
  if l = "en" then some "English"
  else if l = "fr" then some "French"
  else none

/-- `GeoResolver.geoJSONFromLatLng`. -/
def geoJSONFromLatLng (coordinates : List Int) : GeoPoint :=
  { coordinates := coordinates, ptType := some "Point" }

/-- The some-branch of the static `GeoResolver.queryFromLocation`
(GeoResolver.ts lines 318-347): build the canonical query object with the
source's literal field order, defaulting `resolveIpWithGeo` to true, the
radius bounds to 0, deriving `region` from the country's ccTLD and
lowercasing it.  A `byIso` miss leaves `region` null in JavaScript, modelled
as an absent field. -/
def canonS (location : Loc) : Loc :=
  let region0 : Option String :=
    match location.region with
    | some r => some r
    | none => if truthyS location.country then byIsoInternet (location.country.getD "") else none
  let loc0 : Option GeoPoint :=
    match location.location with
    | some g =>
        some { coordinates := g.coordinates,
               maxDistance := some (jsOrNum g.maxDistance 0),
               minDistance := some (jsOrNum g.minDistance 0) }
    | none => none
  let idv := jsOrJ location._id location.id
  { administrativeLevel1 := location.administrativeLevel1,
    administrativeLevel2 := location.administrativeLevel2,
    country := location.country,
    locality := location.locality,
    address := location.address,
    ipAddress := location.ipAddress,
    resolveIpWithGeo := some (location.resolveIpWithGeo.getD true),
    location := loc0,
    id := idv,
    _id := idv,
    region :=
      match region0 with
      | some r => some (if r != "" then jsToLower r else r)
      | none => none }

/-- `GeoResolver.queryFromLocation` on a nullable argument. -/
def queryFromLocation (location : Option Loc) : Option Loc :=
  location.map canonS

/-- `GeoResolver.locationFromQuery` (GeoResolver.ts lines 236-257).  The
source mutates its argument and returns the same object; the model returns
the post-mutation state of that object.  The label computation is wrapped in
a try/catch whose throw path is modelled by `Except.error`. -/
def locationFromQuery : Option Loc → Except Unit (Option Loc)
  | none => .ok none
  | some r0 =>
      let idv := r0.id
      let r1 :=
        match r0.location with
        | some g => { r0 with location := some { g with maxDistance := none, minDistance := none } }
        | none => r0
      let r2 := { r1 with fromCache := none, ipAddress := none, resolveIpWithGeo := none }
      match LabelLocationSafe (some r2) with
      | .error _ => .error ()
      | .ok lbl =>
          let r3 := { r2 with safeLabel := some lbl }
          let r4 :=
            match r3.location with
            | some g => { r3 with location := some { g with ptType := some "Point" } }
            | none => r3
          .ok (some { r4 with id := idv })

/-- An optional string field of a serialized object. -/
def optStr (k : String) (v : Option String) : List (String × JVal) :=
  match v with
  | some s => [(k, .str s)]
  | none => []

/-- An optional boolean field of a serialized object. -/
def optB (k : String) (v : Option Bool) : List (String × JVal) :=
  match v with
  | some b => [(k, .boolean b)]
  | none => []

/-- An optional identifier field of a serialized object. -/
def optJ (k : String) (v : Option JVal) : List (String × JVal) :=
  match v with
  | some x => [(k, x)]
  | none => []

/-- A `GeoPoint` as the JavaScript object it is, with its literal field
order. -/
def gpVal (g : GeoPoint) : JVal :=
  .objOfList ([("coordinates", .arrOfList (g.coordinates.map .num))] ++
    (match g.maxDistance with | some n => [("maxDistance", .num n)] | none => []) ++
    (match g.minDistance with | some n => [("minDistance", .num n)] | none => []) ++
    (match g.ptType with | some t => [("type", .str t)] | none => []))

/-- The optional location field of a serialized object. -/
def optGp (k : String) (v : Option GeoPoint) : List (String × JVal) :=
  match v with
  | some g => [(k, gpVal g)]
  | none => []

/-- The canonical query as the ordered field list that `hashObject`
serializes: the literal field order of `queryFromLocation`, with
undefined-valued fields deleted. -/
def canonicalFields (q : Loc) : List (String × JVal) :=
  optStr "administrativeLevel1" q.administrativeLevel1 ++
  optStr "administrativeLevel2" q.administrativeLevel2 ++
  optStr "country" q.country ++
  optStr "locality" q.locality ++
  optStr "address" q.address ++
  optStr "ipAddress" q.ipAddress ++
  optB "resolveIpWithGeo" q.resolveIpWithGeo ++
  optGp "location" q.location ++
  optJ "id" q.id ++
  optJ "_id" q._id ++
  optStr "region" q.region

/-- `GeoResolver.cacheKey` (GeoResolver.ts lines 743-746): canonicalize the
input, then hash and base64-encode the canonical structure.  Modelled from
the spec: the external encode-tools `hashObject`/`encodeBuffer` pair is a
deterministic, collision-resistant function of the serialized canonical
structure (spec secs. 3 and 4.2); the resulting key is modelled as the
canonical structure itself. -/
def cacheKey (input : Loc) : JVal :=
  .objOfList (canonicalFields (canonS input))

/-- First-match association lookup, modelling JavaScript property access on
an object given by its ordered field list. -/
def klookup : List (String × JVal) → String → Option JVal
  | [], _ => none
  | (kf, v) :: rest, k => if kf = k then some v else klookup rest k

/-- Read a string-valued property of a raw JavaScript object. -/
def getS (o : List (String × JVal)) (k : String) : Option String :=
  match klookup o k with
  | some (.str s) => some s
  | _ => none

/-- Read a boolean-valued property of a raw JavaScript object. -/
def getB (o : List (String × JVal)) (k : String) : Option Bool :=
  match klookup o k with
  | some (.boolean b) => some b
  | _ => none

/-- Read a location-valued property of a raw JavaScript object. -/
def readGp (v : JVal) : Option GeoPoint :=
  (JVal.toObjList v).map (fun fs =>
      { coordinates :=
               (match (klookup fs "coordinates").bind JVal.toArrList with
                | some xs => xs.filterMap (fun x => match x with | .num n => some n | _ => none)
                | _ => []),
             maxDistance :=
               (match klookup fs "maxDistance" with
                | some (.num n) => some n
                | _ => none),
             minDistance :=
               (match klookup fs "minDistance" with
                | some (.num n) => some n
                | _ => none),
             ptType :=
               (match klookup fs "type" with
                | some (.str s) => some s
                | _ => none) })

/-- Interpret a raw JavaScript object (an ordered field list) as the dynamic
query-or-record shape, reading each property by name exactly as the
shape-polymorphic source code does; the order in which the object's fields
were inserted is invisible to this access path. -/
def readLoc (o : List (String × JVal)) : Loc :=
  { id := klookup o "id",
    _id := klookup o "_id",
    locality := getS o "locality",
    administrativeLevel1 := getS o "administrativeLevel1",
    administrativeLevel2 := getS o "administrativeLevel2",
    country := getS o "country",
    fromCache := getB o "fromCache",
    location := (klookup o "location").bind readGp,
    region := getS o "region",
    address := getS o "address",
    ipAddress := getS o "ipAddress",
    resolveIpWithGeo := getB o "resolveIpWithGeo",
    timezone := getS o "timezone",
    languages :=
      (match (klookup o "languages").bind JVal.toArrList with
       | some xs => some (xs.map (fun x => match x with | .str s => some s | _ => none))
       | _ => none),
    phoneCode := getS o "phoneCode",
    countryName := getS o "countryName",
    safeLabel := getS o "safeLabel" }

/-- The canonical-query fields, used to state cache-key injectivity. -/
inductive QField where
  | adminLevel1
  | adminLevel2
  | country
  | locality
  | address
  | ipAddress
  | resolveIpWithGeo
  | location
  | idField
  | idAlt
  | region
deriving DecidableEq

/-- The serialized field name of each canonical-query field. -/
def qname : QField → String
  | .adminLevel1 => "administrativeLevel1"
  | .adminLevel2 => "administrativeLevel2"
  | .country => "country"
  | .locality => "locality"
  | .address => "address"
  | .ipAddress => "ipAddress"
  | .resolveIpWithGeo => "resolveIpWithGeo"
  | .location => "location"
  | .idField => "id"
  | .idAlt => "_id"
  | .region => "region"

/-- The serialized value of each canonical-query field. -/
def getQ (q : Loc) : QField → Option JVal
  | .adminLevel1 => q.administrativeLevel1.map .str
  | .adminLevel2 => q.administrativeLevel2.map .str
  | .country => q.country.map .str
  | .locality => q.locality.map .str
  | .address => q.address.map .str
  | .ipAddress => q.ipAddress.map .str
  | .resolveIpWithGeo => q.resolveIpWithGeo.map .boolean
  | .location => q.location.map gpVal
  | .idField => q.id
  | .idAlt => q._id
  | .region => q.region.map .str

/-- The safe-label formula as the claim states it: the non-empty fields among
(locality if non-empty, otherwise administrativeLevel2), administrativeLevel1
and countryName joined with a comma, else the raw address, else empty. -/
def labelSpec (l : Loc) : String :=
  let parts := [if truthyS l.locality then l.locality else l.administrativeLevel2,
                l.administrativeLevel1,
                l.countryName].filterMap (fun o => if truthyS o then o else none)
  if parts.length > 0 then joinSep ", " parts
  else l.address.getD ""

/-- `LocationResolvePriorities` (GeoResolver.ts lines 28-65). -/
inductive Priority where
  | id
  | location
  | googlePlaceId
  | address
  | locality
  | administrativeLevel1
  | administrativeLevel2
  | country
  | ipAddress
deriving DecidableEq

/-- `defaultResolvePriorities` (GeoResolver.ts lines 84-94). -/
def defaultResolvePriorities : List Priority :=
  [.ipAddress, .id, .location, .googlePlaceId, .address, .locality,
   .administrativeLevel1, .administrativeLevel2, .country]

/-- Truthiness of the dynamic access `query[priority]` in the cascade's skip
guard; the canonical query has no `googlePlaceId` property. -/
def pfieldTruthy (q : Loc) : Priority → Bool
  | .id => truthyJ q.id
  | .location => q.location.isSome
  | .googlePlaceId => false
  | .address => truthyS q.address
  | .locality => truthyS q.locality
  | .administrativeLevel1 => truthyS q.administrativeLevel1
  | .administrativeLevel2 => truthyS q.administrativeLevel2
  | .country => truthyS q.country
  | .ipAddress => truthyS q.ipAddress

/-- One entry of a raw Google result's `address_components`. -/
structure RawComponent where
  types : List String
  long_name : String
  short_name : String
deriving DecidableEq

/-- One raw Google geocoding result; `coords` is `(lat, lng)` when
`geometry.location` carries both numbers, `none` otherwise. -/
structure RawResult where
  coords : Option (Int × Int) := none
  formatted_address : Option String := none
  place_id : Option String := none
  address_components : List RawComponent := []
deriving DecidableEq

/-- The shape of a request sent by `makeGoogleRequest`, identified by the
query-string parameters each strategy supplies. -/
inductive GReq where
  | latlngReq (latlng : String)
  | addressReq (region : Option String) (address : Option String)
  | placeIdReq (place_id : Option JVal)
  | regionReq (region : String)
  | componentsReq (region : Option String) (components : String)
  | tzReq (latlng : String)
deriving DecidableEq

/-- Observable external actions of the resolver. -/
inductive Effect where
  | googleCall (api : String) (req : GReq)
  | cacheGet (key : JVal)
  | cachePut (key : JVal)
  | geoipLookup (ip : String)
  | strategyCall (name : String)
deriving DecidableEq

/-- One event of a resolution trace: an external effect or a yielded record. -/
inductive Ev where
  | eff (e : Effect)
  | out (r : Option Loc)
deriving DecidableEq

/-- The records yielded along a trace, in order. -/
def evRecs (t : List Ev) : List (Option Loc) :=
  t.filterMap (fun e => match e with | .out r => some r | .eff _ => none)

/-- A trace with its yields removed: what remains visible of an inner
generator whose records a consumer swallows. -/
def effsOnly (t : List Ev) : List Ev :=
  t.filterMap (fun e => match e with | .eff x => some (Ev.eff x) | .out _ => none)

/-- The effects performed along a trace, in order. -/
def evEffs (t : List Ev) : List Effect :=
  t.filterMap (fun e => match e with | .eff x => some x | .out _ => none)

/-- The nested optional fields exposed by a Maxmind GeoIP city record, as
read via `_.get` in `resolveLocationByIpAddress`. -/
structure GeoIpRes where
  longitude : Option Int := none
  latitude : Option Int := none
  timezone : Option String := none
  countryIso : Option String := none
  subdivisions : List String := []
  city : Option String := none
deriving DecidableEq

/-- The external collaborators of one resolver instance: the optional LevelUp
cache (a key-value store whose misses are `none`), the Google geocode and
timezone endpoints, the GeoIP database, and the configured priority order. -/
structure Env where
  cacheStore : Option (JVal → Option (List (Option Loc)))
  geocode : GReq → Except String (Option (List RawResult))
  tzApi : String → Except String (Option String)
  geoip : String → Except String GeoIpRes
  resolvePriority : List Priority

/-- `Number(adminLevelStr.replace('administrative_area_level_', ''))`: the
map key of an administrative component; `none` models `NaN`. -/
def jsNumKey (s : String) : Option Nat :=
  let t := replaceFirst s "administrative_area_level_"
  if t = "" then some 0 else jsParseNat t

/-- The string a JavaScript array sort compares for an admin-level key. -/
def sortKeyStr : Option Nat → String
  | some n => natToStr n
  | none => "NaN"

/-- Insert into a list sorted by `sortKeyStr`. -/
def insertSorted (x : Option Nat) : List (Option Nat) → List (Option Nat)
  | [] => [x]
  | y :: ys => if strLt (sortKeyStr x) (sortKeyStr y) then x :: y :: ys else y :: insertSorted x ys

/-- `Array.from(map.keys()).sort()`: default JavaScript sort, which compares
keys as strings. -/
def jsSortKeys : List (Option Nat) → List (Option Nat)
  | [] => []
  | x :: xs => insertSorted x (jsSortKeys xs)

/-- `Map.set`: overwrite in place, preserving first-insertion order. -/
def mapSet (m : List (Option Nat × String)) (k : Option Nat) (v : String) :
    List (Option Nat × String) :=
  match m with
  | [] => [(k, v)]
  | (kf, vf) :: rest => if kf = k then (kf, v) :: rest else (kf, vf) :: mapSet rest k v

/-- `Map.get`. -/
def mapGet (m : List (Option Nat × String)) (k : Option Nat) : Option String :=
  match m with
  | [] => none
  | (kf, vf) :: rest => if kf = k then some vf else mapGet rest k

/-- The `for (const component of components)` walk of
`processGoogleResponse`: locality preferred over sublocality, admin-level
components collected into the level map, country taken from the short name. -/
def walkComponents (r : Loc) (amap : List (Option Nat × String)) :
    List RawComponent → Loc × List (Option Nat × String)
  | [] => (r, amap)
  | c :: rest =>
      if c.types.contains "locality" then
        walkComponents { r with locality := some c.long_name } amap rest
      else if c.types.contains "sublocality" && !truthyS r.locality then
        walkComponents { r with locality := some c.long_name } amap rest
      else
        match c.types.find? (fun t => strContainsSub t "administrative_area_level") with
        | some t => walkComponents r (mapSet amap (jsNumKey t) c.long_name) rest
        | none =>
            if c.types.contains "country" then
              walkComponents { r with country := some c.short_name } amap rest
            else walkComponents r amap rest

/-- One iteration of `processGoogleResponse`'s result loop: overlay a raw
result on a clone of the canonical query, failing without coordinates, then
select the admin levels from the two sort-lowest keys of the level map. -/
def processOneRaw (q : Loc) (raw : RawResult) : Except Err Loc :=
  match raw.coords with
  | none => .error .couldNotResolveLocation
  | some (lat, lng) =>
      let r := q
      let r := match r.location with
        | some _ => r
        | none => { r with location := some (geoJSONFromLatLng [lng, lat]) }
      let r := if truthyS raw.formatted_address then { r with address := raw.formatted_address } else r
      let r := if truthyS raw.place_id then
          { r with id := raw.place_id.map .str, _id := raw.place_id.map .str }
        else r
      let wr := walkComponents r [] raw.address_components
      let amap := wr.2
      let lowest := (jsSortKeys (amap.map Prod.fst)).take 2
      .ok { wr.1 with administrativeLevel1 := (lowest[0]?).bind (mapGet amap),
                      administrativeLevel2 := (lowest[1]?).bind (mapGet amap) }

/-- The result loop of `processGoogleResponse`; records yielded before a
`CouldNotResolveLocationError` have already been delivered. -/
def pgrGo (q : Loc) : List RawResult → List Ev × Option Err
  | [] => ([], none)
  | raw :: rest =>
      match processOneRaw q raw with
      | .error e => ([], some e)
      | .ok r =>
          let t := pgrGo q rest
          (Ev.out (some r) :: t.1, t.2)

/-- `GeoResolver.processGoogleResponse` (GeoResolver.ts lines 151-207). -/
def processGoogleResponse (q : Loc) (resp : Option (List RawResult)) : List Ev × Option Err :=
  match resp with
  | none => ([], none)
  | some rs => pgrGo q rs

/-- `GeoResolver.resolveLocationByLatitudeAndLongitude` (lines 501-514). -/
def resolveLocationByLatitudeAndLongitude (env : Env) (result : Loc) : List Ev × Option Err :=
  let query := canonS result
  let pre := [Ev.eff (.strategyCall "latlng")]
  match query.location with
  | none => (pre, some .locationQueryError)
  | some g =>
      let latlng := intToStr (g.coordinates.getD 1 0) ++ "," ++ intToStr (g.coordinates.getD 0 0)
      let req := GReq.latlngReq latlng
      let pre := pre ++ [Ev.eff (.googleCall "geocode" req)]
      match env.geocode req with
      | .error _ => (pre, some .locationQueryError)
      | .ok resp =>
          let t := processGoogleResponse query resp
          (pre ++ t.1, if t.2.isSome then some Err.locationQueryError else none)

/-- `GeoResolver.resolveLocationByAddress` (lines 535-552). -/
def resolveLocationByAddress (env : Env) (result : Loc) : List Ev × Option Err :=
  let query := canonS result
  let req := GReq.addressReq query.region query.address
  let pre := [Ev.eff (.strategyCall "address"), Ev.eff (.googleCall "geocode" req)]
  match env.geocode req with
  | .error _ => (pre, some .locationQueryError)
  | .ok resp =>
      let t := processGoogleResponse query resp
      (pre ++ t.1, if t.2.isSome then some Err.locationQueryError else none)

/-- `GeoResolver.resolveLocationByPlaceId` (lines 573-594): the place id is
`query._id || query.id`; without one, a truthy region hint replaces it. -/
def resolveLocationByPlaceId (env : Env) (result : Loc) : List Ev × Option Err :=
  let query := canonS result
  let pid := jsOrJ query._id query.id
  let req := if !truthyJ pid && truthyS query.region then GReq.regionReq (query.region.getD "")
    else GReq.placeIdReq pid
  let pre := [Ev.eff (.strategyCall "placeId"), Ev.eff (.googleCall "geocode" req)]
  match env.geocode req with
  | .error _ => (pre, some .locationQueryError)
  | .ok resp =>
      let t := processGoogleResponse query resp
      (pre ++ t.1, if t.2.isSome then some Err.locationQueryError else none)

/-- `GeoResolver.assembleAddressComponents` (lines 389-403): the ordered
component map, locality first and country last. -/
def assembleAddressComponents (input : Loc) : List (String × String) :=
  let query := canonS input
  (if truthyS query.locality then [("locality", query.locality.getD "")] else []) ++
  (if truthyS query.administrativeLevel2 then
    [("administrative_area_level_2", query.administrativeLevel2.getD "")] else []) ++
  (if truthyS query.administrativeLevel1 then
    [("administrative_area_level_1", query.administrativeLevel1.getD "")] else []) ++
  (if truthyS query.country then [("country", query.country.getD "")] else [])

/-- `value.replace(/\s/ig, '+')`. -/
def spacesToPlus (s : String) : String :=
  ⟨s.data.map (fun c => if c.isWhitespace then '+' else c)⟩

/-- The pipe-delimited component filter built by
`resolveLocationByAddressComponents`. -/
def componentsString (comps : List (String × String)) : String :=
  joinSep "|" (comps.map (fun kv =>
    (if strContainsSub kv.1 "administrative_area" then "administrative_area" else kv.1)
      ++ ":" ++ spacesToPlus kv.2))

/-- `GeoResolver.resolveLocationByAddressComponents` (lines 616-640). -/
def resolveLocationByAddressComponents (env : Env) (result : Loc) : List Ev × Option Err :=
  let query := canonS result
  let comps := assembleAddressComponents query
  let req := GReq.componentsReq query.region (componentsString comps)
  let pre := [Ev.eff (.strategyCall "addressComponents"), Ev.eff (.googleCall "geocode" req)]
  match env.geocode req with
  | .error _ => (pre, some .locationQueryError)
  | .ok resp =>
      let t := processGoogleResponse query resp
      (pre ++ t.1, if t.2.isSome then some Err.locationQueryError else none)

/-- `GeoResolver.resolveLocationByIpAddress` (lines 661-723).  The source
mutates its argument (`output = result`) and yields it; the model returns the
trace, the mutated object, and the error, so the cascade can keep threading
the mutated record. -/
def resolveLocationByIpAddress (env : Env) (result : Loc) : List Ev × Loc × Option Err :=
  let query := canonS result
  match query.ipAddress with
  | none => ([Ev.eff (.strategyCall "ipAddress")], result, some .locationQueryError)
  | some ip =>
      let pre := [Ev.eff (.strategyCall "ipAddress"), Ev.eff (.geoipLookup ip)]
      match env.geoip ip with
      | .error _ => (pre, result, some .locationQueryError)
      | .ok g =>
          let output := result
          let output := if truthyI g.longitude && truthyI g.latitude then
              { output with location := some { coordinates := [g.longitude.getD 0, g.latitude.getD 0],
                                               ptType := some "Point" } }
            else output
          let output := if truthyS g.timezone then { output with timezone := g.timezone } else output
          let country := g.countryIso
          let output := if truthyS country then { output with country := country } else output
          let cdo := if truthyS country then countryData (country.getD "") else none
          let cname := cdo.map CountryInfo.name
          let output := if truthyS cname then { output with countryName := cname } else output
          let langs := cdo.map (fun c => c.languages.map languageData)
          let output := match langs with
            | some ls => if ls.length != 0 then { output with languages := some ls } else output
            | none => output
          let a1 := g.subdivisions[0]?
          let output := if truthyS a1 then { output with administrativeLevel1 := a1 } else output
          let a2 := g.subdivisions[1]?
          let output := if truthyS a2 then { output with administrativeLevel2 := a2 } else output
          let lc := g.city
          let output := if truthyS lc then { output with locality := lc } else output
          let addr := labelCore lc a1 a2 cname none
          let output := if truthyS addr then { output with address := addr } else output
          let key := cacheKey query
          let output := { output with id := some key, _id := some key }
          (pre ++ [Ev.out (some output)], output, none)

/-- `GeoResolver.getLocationsFromCache` (lines 790-806): with no configured
cache return `[]` without touching keys; a `notFound` miss is swallowed
as `[]`. -/
def getLocationsFromCacheEff (env : Env) (probe : Loc) : List Ev × List (Option Loc) :=
  match env.cacheStore with
  | none => ([], [])
  | some store =>
      let k := cacheKey probe
      ([Ev.eff (.cacheGet k)], (store k).getD [])

/-- The repeated cascade pattern: probe the cache count, on a hit yield every
cached record and `break`; otherwise run the live strategy, and on its
success continue with the rest of the facet loop. -/
def branchStep (env : Env) (probe : Loc) (live : List Ev × Option Err)
    (next : List Ev × Option Err) : List Ev × Option Err :=
  let c1 := getLocationsFromCacheEff env probe
  if c1.2.length != 0 then
    let c2 := getLocationsFromCacheEff env probe
    (c1.1 ++ c2.1 ++ c2.2.map Ev.out, none)
  else
    match live with
    | (t, some e) => (c1.1 ++ t, some e)
    | (t, none) => (c1.1 ++ t ++ next.1, next.2)

/-- The narrow probe of the identifier facet: `{'_id': query.id}`. -/
def idProbe (query : Loc) : Loc := { _id := query.id }

/-- The narrow probe of the address facet: `{'address': query.address}`. -/
def addressProbe (query : Loc) : Loc := { address := query.address }

/-- The narrow probe of the locality facet: locality plus whichever of the
admin levels and country are truthy. -/
def localityProbe (query : Loc) : Loc :=
  { locality := query.locality,
    administrativeLevel2 := if truthyS query.administrativeLevel2 then query.administrativeLevel2 else none,
    administrativeLevel1 := if truthyS query.administrativeLevel1 then query.administrativeLevel1 else none,
    country := if truthyS query.country then query.country else none }

/-- The narrow probe of the administrative-level-2 facet. -/
def admin2Probe (query : Loc) : Loc :=
  { administrativeLevel2 := query.administrativeLevel2,
    administrativeLevel1 := if truthyS query.administrativeLevel1 then query.administrativeLevel1 else none,
    country := if truthyS query.country then query.country else none }

/-- The narrow probe of the administrative-level-1 facet. -/
def admin1Probe (query : Loc) : Loc :=
  { administrativeLevel1 := query.administrativeLevel1,
    country := if truthyS query.country then query.country else none }

/-- The narrow probe of the country facet. -/
def countryProbe (query : Loc) : Loc := { country := query.country }

/-- The facet loop of `GeoResolver.resolveLocation` (lines 858-1013): the
skip guard, then the per-priority branches.  Only the IP strategy mutates the
threaded `result` object. -/
def cascadeGo (env : Env) (query : Loc) : Loc → List Priority → List Ev × Option Err
  | _, [] => ([], none)
  | r, p :: rest =>
      if !r.location.isSome && !truthyS query.ipAddress && !pfieldTruthy query p then
        cascadeGo env query r rest
      else
        match p with
        | .ipAddress =>
            if truthyS query.ipAddress && decide (query.id = r.id) then
              let s := resolveLocationByIpAddress env r
              match s.2.2 with
              | some e => (s.1, some e)
              | none =>
                  if !truthyB query.resolveIpWithGeo then (s.1, none)
                  else
                    let t := cascadeGo env query s.2.1 rest
                    (s.1 ++ t.1, t.2)
            else cascadeGo env query r rest
        | .id =>
            if truthyJ query.id && decide (query.id = r.id) then
              branchStep env (idProbe query) (resolveLocationByPlaceId env r)
                (cascadeGo env query r rest)
            else cascadeGo env query r rest
        | .location =>
            if (match query.location with
                | some g => decide (g.coordinates.length ≠ 0)
                | none => false) && decide (r.location = query.location) then
              branchStep env query (resolveLocationByLatitudeAndLongitude env r)
                (cascadeGo env query r rest)
            else cascadeGo env query r rest
        | .googlePlaceId => cascadeGo env query r rest
        | .address =>
            if truthyS query.address && decide (r.address = query.address) then
              branchStep env (addressProbe query) (resolveLocationByAddress env r)
                (cascadeGo env query r rest)
            else cascadeGo env query r rest
        | .locality =>
            if truthyS query.locality && decide (r.locality = query.locality) then
              branchStep env (localityProbe query) (resolveLocationByAddressComponents env r)
                (cascadeGo env query r rest)
            else cascadeGo env query r rest
        | .administrativeLevel2 =>
            if truthyS query.administrativeLevel2 &&
                decide (r.administrativeLevel2 = query.administrativeLevel2) then
              branchStep env (admin2Probe query) (resolveLocationByAddressComponents env r)
                (cascadeGo env query r rest)
            else cascadeGo env query r rest
        | .administrativeLevel1 =>
            if truthyS query.administrativeLevel1 &&
                decide (r.administrativeLevel1 = query.administrativeLevel1) then
              branchStep env (admin1Probe query) (resolveLocationByAddressComponents env r)
                (cascadeGo env query r rest)
            else cascadeGo env query r rest
        | .country =>
            if truthyS query.country && decide (r.country = query.country) then
              branchStep env (countryProbe query) (resolveLocationByAddressComponents env r)
                (cascadeGo env query r rest)
            else cascadeGo env query r rest

/-- `GeoResolver.resolveLocation` (lines 852-1015): canonicalize once, return
quietly on null, then run the facet loop. -/
def resolveLocation (env : Env) (result : Option Loc) : List Ev × Option Err :=
  match result with
  | none => ([], none)
  | some r => cascadeGo env (canonS r) r env.resolvePriority

/-- `GeoResolver.getTimezone` (lines 420-444): a missing coordinate payload
or provider failure throws a `LocationQueryError`; a response without a
truthy `timeZoneId` returns null; otherwise the argument is mutated and
returned. -/
def getTimezone (env : Env) (result : Loc) : List Ev × Except Unit (Option Loc) :=
  let query := canonS result
  match query.location with
  | none => ([], .error ())
  | some g =>
      let latlng := intToStr (g.coordinates.getD 1 0) ++ "," ++ intToStr (g.coordinates.getD 0 0)
      let pre := [Ev.eff (.googleCall "timezone" (.tzReq latlng))]
      match env.tzApi latlng with
      | .error _ => (pre, .error ())
      | .ok tz =>
          if !truthyS tz then (pre, .ok none)
          else
            let result := match result.location with
              | some _ => result
              | none => { result with location := some (geoJSONFromLatLng g.coordinates) }
            let result := { result with id := jsOrJ result.id query.id }
            (pre, .ok (some { result with timezone := tz }))

/-- `info.languages.map(s => languageData[s].name)`: an unknown language code
throws, aborting the whole mapping. -/
def mapLangsStrict : List String → Option (List (Option String))
  | [] => some []
  | l :: rest =>
      match languageData l with
      | none => none
      | some n => (mapLangsStrict rest).map (fun xs => some n :: xs)

/-- The tail of `getCountryInfo` after the location-defaulting line: set the
id, then the languages and phone code, mutations persisting up to the point
of a throw (the second component flags the throw). -/
def getCountryInfoCont (info : Option CountryInfo) (query : Loc) (result : Loc) :
    Loc × Option Unit :=
  let result := { result with id := jsOrJ result.id query.id }
  match info with
  | none => (result, some ())
  | some i =>
      match mapLangsStrict i.languages with
      | none => (result, some ())
      | some ls => ({ result with languages := some ls, phoneCode := some i.phone }, none)

/-- `GeoResolver.getCountryInfo` (lines 464-480): the thrown error is a
`LocationQueryError`, but mutations made before the throw persist on the
argument, so the model returns the post-state together with the throw flag. -/
def getCountryInfo (result : Loc) : Loc × Option Unit :=
  let query := canonS result
  let info := match query.country with
    | some c => countryData c
    | none => none
  match result.location with
  | some _ => getCountryInfoCont info query result
  | none =>
      match query.location with
      | none => (result, some ())
      | some g => getCountryInfoCont info query { result with location := some (geoJSONFromLatLng g.coordinates) }

/-- The country half of the enrichment try-block in `resolveLocationsInner`,
followed by the `yield GeoResolver.locationFromQuery(result)`. -/
def countryStep (r : Loc) : Except Unit (Option Loc) :=
  if r.languages.isNone || r.phoneCode.isNone then
    let g := getCountryInfo r
    locationFromQuery (some g.1)
  else locationFromQuery (some r)

/-- The loop body of `resolveLocationsInner` after deduplication: the
enrichment try-block (both steps caught together, so a timezone throw skips
the country step, and a null timezone result nulls the record before the
country step throws on it) and the final yield. -/
def enrichYield (env : Env) (r : Loc) : List Ev × Except Unit (Option Loc) :=
  if r.timezone = none then
    match getTimezone env r with
    | (t, .error _) => (t, locationFromQuery (some r))
    | (t, .ok none) => (t, locationFromQuery none)
    | (t, .ok (some r1)) => (t, countryStep r1)
  else ([], countryStep r)

/-- The consumption loop of `resolveLocationsInner` (lines 1127-1147): break
on the first falsy record, deduplicate by the raw `id` through the basket
set, enrich, yield. -/
def innerLoop (env : Env) (seen : List (Option JVal)) : List (Option Loc) → List Ev × Option Err
  | [] => ([], none)
  | none :: _ => ([], none)
  | some r :: rest =>
      if seen.contains r.id then innerLoop env seen rest
      else
        let e := enrichYield env r
        match e.2 with
        | .error _ => (e.1, some .locationQueryError)
        | .ok y =>
            let t := innerLoop env (r.id :: seen) rest
            (e.1 ++ [Ev.out y] ++ t.1, t.2)

/-- `GeoResolver.resolveLocationsInner` (lines 1122-1149).  A cascade error
surfaces only when the consumer drains past the last yield, so a break on a
falsy record suppresses it. -/
def resolveLocationsInner (env : Env) (result : Option Loc) : List Ev × Option Err :=
  match queryFromLocation result with
  | none => ([], none)
  | some query =>
      let c := resolveLocation env (some query)
      let recs := evRecs c.1
      let t := innerLoop env [] recs
      (effsOnly c.1 ++ t.1,
        match t.2 with
        | some e => some e
        | none => if recs.contains none then none else c.2)

/-- `GeoResolver.resolveLocations` (lines 1086-1116): reading `fromCache` of
a null canonical query throws; on an aggregate cache hit the cached list is
yielded verbatim; otherwise the inner resolution runs and, when it finishes
without error, the accumulated list is written back.  Canonicalization strips
`fromCache`, so the `query.fromCache !== false` conjunct always holds. -/
def resolveLocations (env : Env) (result : Option Loc) : List Ev × Option Err :=
  match result with
  | none => ([], some .typeError)
  | some r0 =>
      let query := canonS r0
      match env.cacheStore with
      | some store =>
          if query.fromCache != some false then
            let key := cacheKey query
            match store key with
            | some locations => (Ev.eff (.cacheGet key) :: locations.map Ev.out, none)
            | none =>
                let t := resolveLocationsInner env (some query)
                match t.2 with
                | some e => (Ev.eff (.cacheGet key) :: t.1, some e)
                | none => (Ev.eff (.cacheGet key) :: (t.1 ++ [Ev.eff (.cachePut key)]), none)
          else resolveLocationsInner env (some query)
      | none => resolveLocationsInner env (some query)

/-- The events a consumer of the lazy cascade performs when it stops pulling
at the first yielded record. -/
def takeToFirstOut : List Ev → List Ev
  | [] => []
  | .out r :: _ => [.out r]
  | .eff e :: rest => .eff e :: takeToFirstOut rest

/-- `GeoResolver.resolveOneLocation` (lines 1036-1041): pull the first record
of `resolveLocation` — not of `resolveLocations` — and return it, or null
when the cascade finishes empty; an error thrown before the first yield
propagates. -/
def resolveOneLocation (env : Env) (result : Option Loc) : List Ev × Except Err (Option Loc) :=
  let c := resolveLocation env result
  match evRecs c.1 with
  | [] => (takeToFirstOut c.1,
           match c.2 with
           | some e => .error e
           | none => .ok none)
  | r :: _ => (takeToFirstOut c.1, .ok r)

instance {ε α : Type} [DecidableEq ε] [DecidableEq α] : DecidableEq (Except ε α) :=
  fun a b =>
    match a, b with
    | .ok x, .ok y =>
        if h : x = y then isTrue (by rw [h]) else isFalse (by intro hc; cases hc; exact h rfl)
    | .error x, .error y =>
        if h : x = y then isTrue (by rw [h]) else isFalse (by intro hc; cases hc; exact h rfl)
    | .ok _, .error _ => isFalse (by intro hc; cases hc)
    | .error _, .ok _ => isFalse (by intro hc; cases hc)

/-- Specification-side first-occurrence deduplication keyed by the raw `id`
field (identifier-less records all share the key `none`). -/
def dedupKeyed (seen : List (Option JVal)) : List Loc → List Loc
  | [] => []
  | r :: rest =>
      if seen.contains r.id then dedupKeyed seen rest
      else r :: dedupKeyed (r.id :: seen) rest

/-- The record (or null) that the aggregation yields for one deduplicated
cascade record. -/
def enrichOut (env : Env) (r : Loc) : Option Loc :=
  match (enrichYield env r).2 with
  | .ok y => y
  | .error _ => none

/-- The branch guard of each cache-bearing facet of the cascade, as written
in the corresponding `else if` of `resolveLocation`. -/
def facetCond (query r : Loc) : Priority → Bool
  | .id => truthyJ query.id && decide (query.id = r.id)
  | .location =>
      (match query.location with
       | some g => decide (g.coordinates.length ≠ 0)
       | none => false) && decide (r.location = query.location)
  | .address => truthyS query.address && decide (r.address = query.address)
  | .locality => truthyS query.locality && decide (r.locality = query.locality)
  | .administrativeLevel2 =>
      truthyS query.administrativeLevel2 &&
        decide (r.administrativeLevel2 = query.administrativeLevel2)
  | .administrativeLevel1 =>
      truthyS query.administrativeLevel1 &&
        decide (r.administrativeLevel1 = query.administrativeLevel1)
  | .country => truthyS query.country && decide (r.country = query.country)
  | .googlePlaceId => false
  | .ipAddress => false

/-- The narrow cache probe each cache-bearing facet builds; the coordinate
facet probes under the whole canonical query. -/
def facetProbe (query : Loc) : Priority → Option Loc
  | .id => some (idProbe query)
  | .location => some query
  | .address => some (addressProbe query)
  | .locality => some (localityProbe query)
  | .administrativeLevel2 => some (admin2Probe query)
  | .administrativeLevel1 => some (admin1Probe query)
  | .country => some (countryProbe query)
  | .googlePlaceId => none
  | .ipAddress => none

/-- A raw Google result carrying administrative levels 2 and 10: the two
numerically lowest levels are 2 then 10, but the default JavaScript sort
orders the keys as strings, "10" before "2". -/
def c8raw : RawResult :=
  { coords := some (1, 2),
    address_components :=
      [ { types := ["administrative_area_level_2", "political"],
          long_name := "LevelTwo", short_name := "L2" },
        { types := ["administrative_area_level_10", "political"],
          long_name := "LevelTen", short_name := "L10" } ] }

/-- A raw Google result carrying administrative levels 1 and 2, where string
and numeric order agree. -/
def c8rawSingle : RawResult :=
  { coords := some (1, 2),
    address_components :=
      [ { types := ["administrative_area_level_2", "political"],
          long_name := "LevelTwo", short_name := "L2" },
        { types := ["administrative_area_level_1", "political"],
          long_name := "LevelOne", short_name := "L1" } ] }

/-- A raw place-id lookup result. -/
def rawPA : RawResult := { coords := some (7, 5), place_id := some "PA" }

/-- A raw address-components lookup result. -/
def rawPB : RawResult := { coords := some (1, 2), place_id := some "PB" }

/-- A query carrying both an identifier and a country. -/
def inp2c : Loc := { id := some (.str "PX"), country := some "US" }

/-- An environment with no cache whose geocoder answers both the place-id
request of `inp2c` and the follow-up address-components request. -/
def env2c : Env :=
  { cacheStore := none,
    geocode := fun req =>
      match req with
      | .placeIdReq (some (.str "PX")) => .ok (some [rawPA])
      | .componentsReq (some "us") "country:US" => .ok (some [rawPB])
      | _ => .error "unexpected",
    tzApi := fun _ => .error "unavailable",
    geoip := fun _ => .error "unavailable",
    resolvePriority := defaultResolvePriorities }

/-- A cached record for the identifier-probe of `inp2c`. -/
def rec2w : Loc := { id := some (.str "PX"), locality := some "CachedTown" }

/-- A cache store holding `rec2w` under the identifier probe of `inp2c`. -/
def store2w : JVal → Option (List (Option Loc)) :=
  fun k => if k = cacheKey (idProbe (canonS inp2c)) then some [some rec2w] else none

/-- `env2c` with the identifier-probe entry pre-populated. -/
def env2w : Env :=
  { cacheStore := some store2w,
    geocode := fun _ => .error "unavailable",
    tzApi := fun _ => .error "unavailable",
    geoip := fun _ => .error "unavailable",
    resolvePriority := defaultResolvePriorities }

/-- A cached record for the locality-only scenario. -/
def rec3C : Loc := { id := some (.str "CACHED"), locality := some "Springfield" }

/-- A locality-only query. -/
def inp3w : Loc := { locality := some "Springfield" }

/-- A cache store pre-populated exactly at the narrow locality probe of
`inp3w`. -/
def store3 : JVal → Option (List (Option Loc)) :=
  fun k => if k = cacheKey (localityProbe (canonS inp3w)) then some [some rec3C] else none

/-- An environment whose only resource is the pre-populated locality cache
entry: every live endpoint fails, so any strategy call would surface as an
error. -/
def env3w : Env :=
  { cacheStore := some store3,
    geocode := fun _ => .error "unavailable",
    tzApi := fun _ => .error "unavailable",
    geoip := fun _ => .error "unavailable",
    resolvePriority := defaultResolvePriorities }

/-- The IP-only query of the end-to-end example. -/
def ipOnlyQuery : Loc := { ipAddress := some "8.8.8.8" }

/-- A GeoIP database record for 8.8.8.8. -/
def g7w : GeoIpRes :=
  { longitude := some 10, latitude := some 20, timezone := some "America/Chicago",
    countryIso := some "US", subdivisions := ["California"], city := some "Mountain View" }

/-- An environment whose GeoIP database knows 8.8.8.8 and whose Google
endpoints all fail, so any geocoding call would surface as an error. -/
def env7w : Env :=
  { cacheStore := none,
    geocode := fun _ => .error "unavailable",
    tzApi := fun _ => .error "unavailable",
    geoip := fun ip => if ip = "8.8.8.8" then .ok g7w else .error "not found",
    resolvePriority := defaultResolvePriorities }

/-- A coordinate payload for the timezone-null scenario. -/
def gp4c : GeoPoint := { coordinates := [7, 8], maxDistance := some 0, minDistance := some 0 }

/-- A coordinates-only query. -/
def inp4c : Loc := { location := some gp4c }

/-- A raw reverse-geocoding result without a timezone. -/
def raw4c : RawResult := { coords := some (8, 7) }

/-- An environment whose timezone endpoint succeeds but returns no
`timeZoneId`. -/
def env4c : Env :=
  { cacheStore := none,
    geocode := fun req =>
      match req with
      | .latlngReq "8,7" => .ok (some [raw4c])
      | _ => .error "unexpected",
    tzApi := fun s => if s = "8,7" then .ok none else .error "unavailable",
    geoip := fun _ => .error "unavailable",
    resolvePriority := defaultResolvePriorities }

/-- An environment whose timezone endpoint always fails. -/
def env4e : Env :=
  { cacheStore := none,
    geocode := fun _ => .error "unavailable",
    tzApi := fun _ => .error "unavailable",
    geoip := fun _ => .error "unavailable",
    resolvePriority := defaultResolvePriorities }

/-- A record with coordinates and no timezone, feeding the enrichment step. -/
def rec4tz : Loc := { location := some { coordinates := [7, 8] } }

/-- A record with a timezone but no languages, feeding the country step. -/
def rec4cn : Loc := { timezone := some "UTC" }

/-- The address-plus-country query of the aggregate-cache scenario. -/
def inp1c : Loc := { address := some "350 5th Ave", country := some "US" }

/-- The record pre-populated under the aggregate key of `inp1c`. -/
def rec1C : Loc := { id := some (.str "CACHED1") }

/-- An environment holding an aggregate cache entry for `inp1c` while the
narrow probes miss, and answering the live address lookup with `rawPA`. -/
def env1c : Env :=
  { cacheStore := some (fun k => if k = cacheKey (canonS inp1c) then some [some rec1C] else none),
    geocode := fun req =>
      match req with
      | .addressReq (some "us") (some "350 5th Ave") => .ok (some [rawPA])
      | _ => .error "unexpected",
    tzApi := fun _ => .error "unavailable",
    geoip := fun _ => .error "unavailable",
    resolvePriority := defaultResolvePriorities }

/-- A country-only query. -/
def inpW : Loc := { country := some "US" }

/-- A cache-free environment answering the address-components request of
`inpW`. -/
def envW : Env :=
  { cacheStore := none,
    geocode := fun req =>
      match req with
      | .componentsReq (some "us") "country:US" => .ok (some [rawPB])
      | _ => .error "unexpected",
    tzApi := fun _ => .error "unavailable",
    geoip := fun _ => .error "unavailable",
    resolvePriority := defaultResolvePriorities }

/-- The first record of the cascade of `envW`/`inpW`, as computed by the
model. -/
def recW : Option Loc := (evRecs (resolveLocation envW (some inpW)).1).headD none

/-- The remaining cascade records of `envW`/`inpW`. -/
def restW : List (Option Loc) := (evRecs (resolveLocation envW (some inpW)).1).tail

/-- The first cascade record of `envW` on the canonicalized `inpW`. -/
def rW : Loc :=
  match evRecs (resolveLocation envW (some (canonS inpW))).1 with
  | some r :: _ => r
  | _ => {}

/-- The remaining cascade records of `envW` on the canonicalized `inpW`. -/
def restW2 : List (Option Loc) :=
  (evRecs (resolveLocation envW (some (canonS inpW))).1).tail

/-- Two identifier-less records for the deduplication witness. -/
def recNoId1 : Loc := { locality := some "Alpha" }

/-- A second identifier-less record, distinct from `recNoId1`. -/
def recNoId2 : Loc := { locality := some "Beta" }

/-- An environment with failing endpoints, for the deduplication witness. -/
def env10w : Env :=
  { cacheStore := none,
    geocode := fun _ => .error "unavailable",
    tzApi := fun _ => .error "unavailable",
    geoip := fun _ => .error "unavailable",
    resolvePriority := defaultResolvePriorities }

theorem labelSafe_ok (l : Loc) : LabelLocationSafe (some l) = .ok (labelSpec l) := by
  have hval : ∀ s : String, (if truthyS (some s) then (some s).getD "" else "") = s := by
    intro s
    by_cases hs : s = "" <;> simp [truthyS, hs]
  show Except.ok
      (if truthyS (labelCore l.locality l.administrativeLevel1 l.administrativeLevel2
          l.countryName l.address) then
        (labelCore l.locality l.administrativeLevel1 l.administrativeLevel2
          l.countryName l.address).getD ""
      else "") = .ok (labelSpec l)
  congr 1
  unfold labelCore labelSpec jsOrS
  by_cases hS : ([if truthyS l.locality then l.locality else l.administrativeLevel2,
      l.administrativeLevel1, l.countryName].filterMap
        (fun o => if truthyS o then o else none)).length > 0
  · simp only [if_pos hS]
    exact hval _
  · simp only [if_neg hS]
    by_cases ha : truthyS l.address = true
    · have h1 : (if truthyS l.address = true then l.address else none) = l.address :=
        if_pos ha
      rw [h1, if_pos ha]
    · simp only [Bool.not_eq_true] at ha
      simp only [ha, if_false]
      cases hA : l.address with
      | none => simp [truthyS]
      | some a =>
          rw [hA] at ha
          simp only [truthyS, bne_eq_false_iff_eq] at ha
          subst ha
          simp [truthyS]

theorem locationFromQuery_isOk (r : Loc) :
    ∃ y : Loc, locationFromQuery (some r) = .ok (some y) := by
  unfold locationFromQuery
  cases hl : r.location <;> simp only [hl, labelSafe_ok] <;> exact ⟨_, rfl⟩

/-- C9 (counterexample): contrary to the claim, the safe-label computation
throws a TypeError on a null (or undefined) input, reading `.locality` of
null before the null guard of the fallback branch is reached. -/
theorem C9_label_null_throws : LabelLocationSafe none = .error () := rfl

/-- C9 (amended): for every non-null input, `LabelLocationSafe` never throws
and returns the non-empty fields among (locality if non-empty, otherwise
administrativeLevel2), administrativeLevel1 and countryName joined with
", "; otherwise the raw address string when present; otherwise "". -/
theorem C9_label_safe_total (l : Loc) :
    LabelLocationSafe (some l) = .ok (labelSpec l) :=
  labelSafe_ok l

/-- C5 (counterexample): `locationFromQuery` mutates its non-null input: for
the input `{ipAddress: "1.2.3.4"}` the object is, after the call (the source
returns the argument itself), stripped of `ipAddress` and carries a new
`safeLabel` — it is not unchanged. -/
theorem C5_locationFromQuery_mutates :
    locationFromQuery (some { ipAddress := some "1.2.3.4" }) =
      .ok (some { safeLabel := some "" }) ∧
    ({ ipAddress := some "1.2.3.4" } : Loc) ≠ ({ safeLabel := some "" } : Loc) := by
  constructor
  · rfl
  · decide

/-- C5 (amended): `queryFromLocation` is pure (it only reads its argument and
deep-clones the result), but `locationFromQuery` mutates its non-null input
in place and returns the same object: radius bounds are removed from the
location payload, `fromCache`, `ipAddress` and `resolveIpWithGeo` are
deleted, a `safeLabel` is attached and the location type is normalized,
while every other field is preserved; it throws only on safe-label failure,
which cannot happen for a non-null input. -/
theorem C5_locationFromQuery_frame (r : Loc) :
    ∃ rp : Loc,
      locationFromQuery (some r) = .ok (some rp) ∧
      rp.id = r.id ∧
      rp._id = r._id ∧
      rp.locality = r.locality ∧
      rp.administrativeLevel1 = r.administrativeLevel1 ∧
      rp.administrativeLevel2 = r.administrativeLevel2 ∧
      rp.country = r.country ∧
      rp.countryName = r.countryName ∧
      rp.region = r.region ∧
      rp.address = r.address ∧
      rp.timezone = r.timezone ∧
      rp.languages = r.languages ∧
      rp.phoneCode = r.phoneCode ∧
      rp.fromCache = none ∧
      rp.ipAddress = none ∧
      rp.resolveIpWithGeo = none ∧
      rp.location = r.location.map (fun g =>
        { coordinates := g.coordinates, ptType := some "Point" }) ∧
      rp.safeLabel = some (labelSpec r) := by
  unfold locationFromQuery
  cases hl : r.location with
  | none =>
      simp only [hl, labelSafe_ok]
      refine ⟨_, rfl, rfl, rfl, rfl, rfl, rfl, rfl, rfl, rfl, rfl, rfl, rfl, rfl,
        rfl, rfl, rfl, rfl, ?_⟩
      · show some (labelSpec _) = some (labelSpec r)
        cases r
        rfl
  | some g =>
      simp only [hl, labelSafe_ok]
      refine ⟨_, rfl, rfl, rfl, rfl, rfl, rfl, rfl, rfl, rfl, rfl, rfl, rfl, rfl,
        rfl, rfl, rfl, rfl, ?_⟩
      · show some (labelSpec _) = some (labelSpec r)
        cases r
        rfl

theorem objOfList_inj : ∀ {l1 l2 : List (String × JVal)},
    JVal.objOfList l1 = JVal.objOfList l2 → l1 = l2
  | [], [], _ => rfl
  | [], (_, _) :: _, h => by simp [JVal.objOfList] at h
  | (_, _) :: _, [], h => by simp [JVal.objOfList] at h
  | (k1, v1) :: t1, (k2, v2) :: t2, h => by
      simp only [JVal.objOfList, JVal.objCons.injEq] at h
      rw [h.1, h.2.1, objOfList_inj h.2.2]

theorem klookup_append (l1 l2 : List (String × JVal)) (k : String) :
    klookup (l1 ++ l2) k = (klookup l1 k).or (klookup l2 k) := by
  induction l1 with
  | nil => simp [klookup, Option.or]
  | cons x rest ih =>
      obtain ⟨kf, v⟩ := x
      simp only [List.cons_append, klookup]
      split <;> simp [Option.or, ih]

theorem klookup_optStr (k kf : String) (v : Option String) :
    klookup (optStr kf v) k = if kf = k then v.map JVal.str else none := by
  cases v <;> simp [optStr, klookup]

theorem klookup_optB (k kf : String) (v : Option Bool) :
    klookup (optB kf v) k = if kf = k then v.map JVal.boolean else none := by
  cases v <;> simp [optB, klookup]

theorem klookup_optJ (k kf : String) (v : Option JVal) :
    klookup (optJ kf v) k = if kf = k then v else none := by
  cases v <;> simp [optJ, klookup]

theorem klookup_optGp (k kf : String) (v : Option GeoPoint) :
    klookup (optGp kf v) k = if kf = k then v.map gpVal else none := by
  cases v <;> simp [optGp, klookup]

theorem klookup_canonicalFields (q : Loc) (f : QField) :
    klookup (canonicalFields q) (qname f) = getQ q f := by
  cases f <;>
    simp [canonicalFields, qname, getQ, klookup_append, klookup_optStr, klookup_optB,
      klookup_optJ, klookup_optGp, Option.or_none, Option.none_or]

theorem klookup_perm {o1 o2 : List (String × JVal)} (hp : o1.Perm o2)
    (nd : (o1.map Prod.fst).Nodup) (k : String) : klookup o1 k = klookup o2 k := by
  induction hp with
  | nil => rfl
  | cons x hperm ih =>
      obtain ⟨kf, v⟩ := x
      simp only [List.map_cons, List.nodup_cons] at nd
      simp only [klookup]
      split
      · rfl
      · exact ih nd.2
  | swap x y l =>
      obtain ⟨k1, v1⟩ := x
      obtain ⟨k2, v2⟩ := y
      simp only [List.map_cons, List.nodup_cons, List.mem_cons] at nd
      have hne : k2 ≠ k1 := fun hc => nd.1 (Or.inl hc)
      simp only [klookup]
      by_cases h1 : k1 = k <;> by_cases h2 : k2 = k <;>
        simp [h1, h2]
      exact absurd (h2.trans h1.symm) hne
  | trans h1 h2 ih1 ih2 =>
      rw [ih1 nd, ih2 (((h1.map Prod.fst).nodup_iff).mp nd)]

theorem readLoc_congr {o1 o2 : List (String × JVal)}
    (h : ∀ k, klookup o1 k = klookup o2 k) : readLoc o1 = readLoc o2 := by
  unfold readLoc getS getB
  simp only [h]

/-- C6: the cache key is deterministic with respect to canonical structure —
a raw query object read through the shape-polymorphic accessors yields the
same key under any permutation of its (duplicate-free) fields, because
`queryFromLocation` re-emits fields in one fixed literal order; and any
difference in a single serialized field of the canonical query changes the
key, because the fixed-order serialization is injective field-wise and the
hash is modelled as collision-free. -/
theorem C6_cacheKey_deterministic :
    (∀ o1 o2 : List (String × JVal), o1.Perm o2 → (o1.map Prod.fst).Nodup →
       cacheKey (readLoc o1) = cacheKey (readLoc o2)) ∧
    (∀ (x y : Loc) (f : QField), getQ (canonS x) f ≠ getQ (canonS y) f →
       cacheKey x ≠ cacheKey y) := by
  constructor
  · intro o1 o2 hp nd
    rw [readLoc_congr (klookup_perm hp nd)]
  · intro x y f hf hk
    apply hf
    have hfields : canonicalFields (canonS x) = canonicalFields (canonS y) :=
      objOfList_inj hk
    calc getQ (canonS x) f = klookup (canonicalFields (canonS x)) (qname f) :=
          (klookup_canonicalFields _ f).symm
      _ = klookup (canonicalFields (canonS y)) (qname f) := by rw [hfields]
      _ = getQ (canonS y) f := klookup_canonicalFields _ f

/-- C6 (witness): field-order permutation of a raw query object leaves the
key unchanged, and changing the locality value changes the key. -/
theorem C6_cacheKey_deterministic_witness :
    cacheKey (readLoc [("locality", .str "Springfield"), ("country", .str "US")]) =
      cacheKey (readLoc [("country", .str "US"), ("locality", .str "Springfield")]) ∧
    cacheKey { locality := some "Springfield" } ≠ cacheKey { locality := some "Quahog" } :=
  ⟨C6_cacheKey_deterministic.1 _ _ (by decide) (by decide),
   C6_cacheKey_deterministic.2 { locality := some "Springfield" } { locality := some "Quahog" }
     QField.locality (by decide)⟩

theorem branchStep_hit (env : Env) (store : JVal → Option (List (Option Loc)))
    (probe : Loc) (live next : List Ev × Option Err) (cached : List (Option Loc))
    (hs : env.cacheStore = some store)
    (hst : store (cacheKey probe) = some cached)
    (hne : cached ≠ []) :
    branchStep env probe live next =
      (Ev.eff (.cacheGet (cacheKey probe)) :: Ev.eff (.cacheGet (cacheKey probe)) ::
        cached.map Ev.out, none) := by
  have hlen : (cached.length != 0) = true := by
    simp only [bne_iff_ne, ne_eq]
    intro h0
    exact hne (List.length_eq_zero.mp h0)
  unfold branchStep getLocationsFromCacheEff
  simp [hs, hst, hlen]

theorem branchStep_miss_continue (env : Env) (probe : Loc) (t : List Ev)
    (next : List Ev × Option Err)
    (hmiss : (getLocationsFromCacheEff env probe).2 = []) :
    branchStep env probe (t, none) next =
      ((getLocationsFromCacheEff env probe).1 ++ t ++ next.1, next.2) := by
  unfold branchStep
  simp [hmiss]

theorem cascadeGo_cacheHit (env : Env) (store : JVal → Option (List (Option Loc)))
    (query r probe : Loc) (p : Priority) (rest : List Priority)
    (cached : List (Option Loc))
    (hs : env.cacheStore = some store)
    (hp : facetProbe query p = some probe)
    (hc : facetCond query r p = true)
    (hst : store (cacheKey probe) = some cached)
    (hne : cached ≠ []) :
    cascadeGo env query r (p :: rest) =
      (Ev.eff (.cacheGet (cacheKey probe)) :: Ev.eff (.cacheGet (cacheKey probe)) ::
        cached.map Ev.out, none) := by
  cases p
  case googlePlaceId => simp [facetProbe] at hp
  case ipAddress => simp [facetProbe] at hp
  case id =>
    simp only [facetProbe, Option.some.injEq] at hp
    subst hp
    simp only [facetCond] at hc
    have h1 : pfieldTruthy query Priority.id = true := by
      simp only [pfieldTruthy]
      have hc2 := hc
      rw [Bool.and_eq_true] at hc2
      exact hc2.1
    simp only [cascadeGo, h1, Bool.not_true, Bool.and_false, Bool.false_eq_true, if_false,
      hc, if_true]
    exact branchStep_hit env store _ _ _ cached hs hst hne
  case location =>
    simp only [facetProbe, Option.some.injEq] at hp
    subst hp
    simp only [facetCond] at hc
    have h1 : pfieldTruthy query Priority.location = true := by
      simp only [pfieldTruthy]
      have hc2 := hc
      rw [Bool.and_eq_true] at hc2
      have := hc2.1
      cases hq : query.location with
      | none => rw [hq] at this; simp at this
      | some g => simp [hq]
    simp only [cascadeGo, h1, Bool.not_true, Bool.and_false, Bool.false_eq_true, if_false,
      hc, if_true]
    exact branchStep_hit env store _ _ _ cached hs hst hne
  case address =>
    simp only [facetProbe, Option.some.injEq] at hp
    subst hp
    simp only [facetCond] at hc
    have h1 : pfieldTruthy query Priority.address = true := by
      simp only [pfieldTruthy]
      have hc2 := hc
      rw [Bool.and_eq_true] at hc2
      exact hc2.1
    simp only [cascadeGo, h1, Bool.not_true, Bool.and_false, Bool.false_eq_true, if_false,
      hc, if_true]
    exact branchStep_hit env store _ _ _ cached hs hst hne
  case locality =>
    simp only [facetProbe, Option.some.injEq] at hp
    subst hp
    simp only [facetCond] at hc
    have h1 : pfieldTruthy query Priority.locality = true := by
      simp only [pfieldTruthy]
      have hc2 := hc
      rw [Bool.and_eq_true] at hc2
      exact hc2.1
    simp only [cascadeGo, h1, Bool.not_true, Bool.and_false, Bool.false_eq_true, if_false,
      hc, if_true]
    exact branchStep_hit env store _ _ _ cached hs hst hne
  case administrativeLevel2 =>
    simp only [facetProbe, Option.some.injEq] at hp
    subst hp
    simp only [facetCond] at hc
    have h1 : pfieldTruthy query Priority.administrativeLevel2 = true := by
      simp only [pfieldTruthy]
      have hc2 := hc
      rw [Bool.and_eq_true] at hc2
      exact hc2.1
    simp only [cascadeGo, h1, Bool.not_true, Bool.and_false, Bool.false_eq_true, if_false,
      hc, if_true]
    exact branchStep_hit env store _ _ _ cached hs hst hne
  case administrativeLevel1 =>
    simp only [facetProbe, Option.some.injEq] at hp
    subst hp
    simp only [facetCond] at hc
    have h1 : pfieldTruthy query Priority.administrativeLevel1 = true := by
      simp only [pfieldTruthy]
      have hc2 := hc
      rw [Bool.and_eq_true] at hc2
      exact hc2.1
    simp only [cascadeGo, h1, Bool.not_true, Bool.and_false, Bool.false_eq_true, if_false,
      hc, if_true]
    exact branchStep_hit env store _ _ _ cached hs hst hne
  case country =>
    simp only [facetProbe, Option.some.injEq] at hp
    subst hp
    simp only [facetCond] at hc
    have h1 : pfieldTruthy query Priority.country = true := by
      simp only [pfieldTruthy]
      have hc2 := hc
      rw [Bool.and_eq_true] at hc2
      exact hc2.1
    simp only [cascadeGo, h1, Bool.not_true, Bool.and_false, Bool.false_eq_true, if_false,
      hc, if_true]
    exact branchStep_hit env store _ _ _ cached hs hst hne

/-- C3: for every cache-bearing facet whose branch guard holds, a non-empty
narrow cache probe makes the cascade yield exactly the cached records (after
the two cache reads the probe performs) and break out of the facet loop:
neither that facet's lookup strategy nor any later facet runs. -/
theorem C3_cache_hit_terminates (env : Env) (store : JVal → Option (List (Option Loc)))
    (query r probe : Loc) (p : Priority) (rest : List Priority)
    (cached : List (Option Loc))
    (hs : env.cacheStore = some store)
    (hp : facetProbe query p = some probe)
    (hc : facetCond query r p = true)
    (hst : store (cacheKey probe) = some cached)
    (hne : cached ≠ []) :
    cascadeGo env query r (p :: rest) =
      (Ev.eff (.cacheGet (cacheKey probe)) :: Ev.eff (.cacheGet (cacheKey probe)) ::
        cached.map Ev.out, none) :=
  cascadeGo_cacheHit env store query r probe p rest cached hs hp hc hst hne

/-- C3 (witness): the pre-populated locality-only scenario — the cascade for
a locality-only query with its narrow cache entry populated yields the cached
record and terminates, with no address-components strategy call. -/
theorem C3_cache_hit_terminates_witness :
    cascadeGo env3w (canonS inp3w) inp3w
        [Priority.locality, Priority.administrativeLevel1,
         Priority.administrativeLevel2, Priority.country] =
      (Ev.eff (.cacheGet (cacheKey (localityProbe (canonS inp3w)))) ::
       Ev.eff (.cacheGet (cacheKey (localityProbe (canonS inp3w)))) ::
       [some rec3C].map Ev.out, none) :=
  C3_cache_hit_terminates env3w store3 (canonS inp3w) inp3w
    (localityProbe (canonS inp3w)) Priority.locality
    [Priority.administrativeLevel1, Priority.administrativeLevel2, Priority.country]
    [some rec3C] rfl rfl (by decide) (by decide) (by decide)

/-- C2 (counterexample): for the query `{id: "PX", country: "US"}` with no
cache, the identifier facet's live place-id lookup yields a record and the
cascade then still runs the country facet: two records come out and the
address-components strategy is invoked after the identifier facet — the
claimed unconditional break after identifier resolution does not happen. -/
theorem C2_identifier_live_no_break :
    (evRecs (resolveLocation env2c (some inp2c)).1).length = 2 ∧
    (evEffs (resolveLocation env2c (some inp2c)).1).contains
      (.strategyCall "addressComponents") = true ∧
    (resolveLocation env2c (some inp2c)).2 = none := by
  refine ⟨by decide, by decide, by decide⟩

/-- C2 (amended): the identifier facet terminates the cascade only when its
records come from the cache; after a live place-id lookup the facet loop
continues with the remaining facets. -/
theorem C2_identifier_break_only_on_cache :
    (∀ (env : Env) (store : JVal → Option (List (Option Loc))) (query r : Loc)
       (rest : List Priority) (cached : List (Option Loc)),
       env.cacheStore = some store →
       facetCond query r .id = true →
       store (cacheKey (idProbe query)) = some cached →
       cached ≠ [] →
       cascadeGo env query r (.id :: rest) =
         (Ev.eff (.cacheGet (cacheKey (idProbe query))) ::
          Ev.eff (.cacheGet (cacheKey (idProbe query))) :: cached.map Ev.out, none)) ∧
    (∀ (env : Env) (query r : Loc) (rest : List Priority),
       env.cacheStore = none →
       facetCond query r .id = true →
       (resolveLocationByPlaceId env r).2 = none →
       cascadeGo env query r (.id :: rest) =
         ((resolveLocationByPlaceId env r).1 ++ (cascadeGo env query r rest).1,
          (cascadeGo env query r rest).2)) := by
  constructor
  · intro env store query r rest cached hs hc hst hne
    exact cascadeGo_cacheHit env store query r (idProbe query) .id rest cached hs rfl hc hst hne
  · intro env query r rest hs hc hok
    simp only [facetCond] at hc
    have h1 : pfieldTruthy query Priority.id = true := by
      simp only [pfieldTruthy]
      have hc2 := hc
      rw [Bool.and_eq_true] at hc2
      exact hc2.1
    have hmiss : (getLocationsFromCacheEff env (idProbe query)).2 = [] := by
      unfold getLocationsFromCacheEff
      rw [hs]
    have hcget : (getLocationsFromCacheEff env (idProbe query)).1 = [] := by
      unfold getLocationsFromCacheEff
      rw [hs]
    rcases hl : resolveLocationByPlaceId env r with ⟨t, e⟩
    rw [hl] at hok
    simp only at hok
    subst hok
    simp only [cascadeGo, h1, Bool.not_true, Bool.and_false, Bool.false_eq_true, if_false,
      hc, if_true]
    rw [hl, branchStep_miss_continue env (idProbe query) t _ hmiss, hcget]
    simp

/-- C2 (witness): the cache-hit break at the identifier facet, and the
live-lookup continuation, each at a concrete input. -/
theorem C2_identifier_break_only_on_cache_witness :
    cascadeGo env2w (canonS inp2c) inp2c
        [Priority.id, Priority.location] =
      (Ev.eff (.cacheGet (cacheKey (idProbe (canonS inp2c)))) ::
       Ev.eff (.cacheGet (cacheKey (idProbe (canonS inp2c)))) ::
       [some rec2w].map Ev.out, none) ∧
    cascadeGo env2c (canonS inp2c) inp2c [Priority.id, Priority.country] =
      ((resolveLocationByPlaceId env2c inp2c).1 ++
         (cascadeGo env2c (canonS inp2c) inp2c [Priority.country]).1,
       (cascadeGo env2c (canonS inp2c) inp2c [Priority.country]).2) :=
  ⟨C2_identifier_break_only_on_cache.1 env2w store2w (canonS inp2c) inp2c
      [Priority.location] [some rec2w] rfl (by decide) (by decide) (by decide),
   C2_identifier_break_only_on_cache.2 env2c (canonS inp2c) inp2c [Priority.country]
      rfl (by decide) (by decide)⟩

/-- C8 (code_bug evaluation): with administrative levels 2 and 10 present,
the response normalizer assigns administrativeLevel1 from level 10 and
administrativeLevel2 from level 2, because the level keys are sorted as
strings ("10" < "2"); the numerically lowest level is 2, so the claimed
selection of the two numerically lowest N fails once a level has two digits,
while levels 1 and 2 still come out in the intended order. -/
theorem C8_admin_levels_sorted_as_strings :
    ((processOneRaw {} c8raw).toOption.map (fun r =>
        (r.administrativeLevel1, r.administrativeLevel2)) =
      some (some "LevelTen", some "LevelTwo")) ∧
    ((processOneRaw {} c8rawSingle).toOption.map (fun r =>
        (r.administrativeLevel1, r.administrativeLevel2)) =
      some (some "LevelOne", some "LevelTwo")) := by
  refine ⟨by decide, by decide⟩

theorem getTimezone_recs (env : Env) (r : Loc) : evRecs (getTimezone env r).1 = [] := by
  simp only [getTimezone]
  split
  · rfl
  · split
    · simp [evRecs]
    · split
      · simp [evRecs]
      · simp [evRecs]

theorem countryStep_ok (r : Loc) : ∃ y : Loc, countryStep r = .ok (some y) := by
  unfold countryStep
  split
  · exact locationFromQuery_isOk _
  · exact locationFromQuery_isOk _

theorem enrichYield_ok (env : Env) (r : Loc) :
    (enrichYield env r).2 = .ok (enrichOut env r) := by
  have hex : ∃ y : Option Loc, (enrichYield env r).2 = .ok y := by
    unfold enrichYield
    split
    · split
      · obtain ⟨y, hy⟩ := locationFromQuery_isOk r
        exact ⟨some y, hy⟩
      · exact ⟨none, rfl⟩
      · obtain ⟨y, hy⟩ := countryStep_ok _
        exact ⟨some y, by simpa using hy⟩
    · obtain ⟨y, hy⟩ := countryStep_ok r
      exact ⟨some y, by simpa using hy⟩
  obtain ⟨y, hy⟩ := hex
  rw [hy]
  unfold enrichOut
  rw [hy]

theorem enrichYield_recs (env : Env) (r : Loc) : evRecs (enrichYield env r).1 = [] := by
  unfold enrichYield
  split
  · rcases hgt : getTimezone env r with ⟨t, e⟩
    have htr : evRecs t = [] := by
      have h0 := getTimezone_recs env r
      rw [hgt] at h0
      exact h0
    cases e with
    | error u => simpa using htr
    | ok v =>
        cases v with
        | none => simpa using htr
        | some r1 => simpa using htr
  · simp [evRecs]

theorem evRecs_effsOnly (t : List Ev) : evRecs (effsOnly t) = [] := by
  induction t with
  | nil => rfl
  | cons e rest ih => cases e <;> simpa [effsOnly, evRecs] using ih

theorem evRecs_append (a b : List Ev) : evRecs (a ++ b) = evRecs a ++ evRecs b := by
  simp [evRecs]

theorem evRecs_out_cons (y : Option Loc) (t : List Ev) :
    evRecs (Ev.out y :: t) = y :: evRecs t := by
  simp [evRecs]

theorem evRecs_eff_cons (e : Effect) (t : List Ev) :
    evRecs (Ev.eff e :: t) = evRecs t := by
  simp [evRecs]

theorem innerLoop_records (env : Env) (recs : List (Option Loc)) :
    ∀ seen : List (Option JVal),
      evRecs (innerLoop env seen recs).1 =
        (dedupKeyed seen ((recs.takeWhile Option.isSome).filterMap (fun x => x))).map
          (enrichOut env) := by
  induction recs with
  | nil => intro seen; rfl
  | cons hd tl ih =>
      intro seen
      cases hd with
      | none => simp [innerLoop, evRecs, List.takeWhile_cons, dedupKeyed]
      | some r =>
          by_cases hc : r.id ∈ seen
          · simp [innerLoop, hc, ih, List.takeWhile_cons, dedupKeyed]
          · simp [innerLoop, hc, enrichYield_ok env r, enrichYield_recs env r, ih,
              List.takeWhile_cons, dedupKeyed, evRecs_append, evRecs_out_cons]

theorem innerLoop_err (env : Env) (recs : List (Option Loc)) :
    ∀ seen : List (Option JVal), (innerLoop env seen recs).2 = none := by
  induction recs with
  | nil => intro seen; rfl
  | cons hd tl ih =>
      intro seen
      cases hd with
      | none => rfl
      | some r =>
          by_cases hc : r.id ∈ seen
          · simp [innerLoop, hc, ih]
          · simp [innerLoop, hc, enrichYield_ok env r, ih]

theorem takeToFirstOut_suffix (t : List Ev) : ∃ u, t = takeToFirstOut t ++ u := by
  induction t with
  | nil => exact ⟨[], rfl⟩
  | cons e rest ih =>
      cases e with
      | out r => exact ⟨rest, rfl⟩
      | eff x =>
          obtain ⟨u, hu⟩ := ih
          refine ⟨u, ?_⟩
          simp only [takeToFirstOut, List.cons_append]
          rw [← hu]

theorem takeToFirstOut_recs_le (t : List Ev) : (evRecs (takeToFirstOut t)).length ≤ 1 := by
  induction t with
  | nil => simp [takeToFirstOut, evRecs]
  | cons e rest ih =>
      cases e with
      | out r => simp [takeToFirstOut, evRecs]
      | eff x => simpa [takeToFirstOut, evRecs] using ih

theorem resolveOneLocation_trace (env : Env) (input : Option Loc) :
    (resolveOneLocation env input).1 = takeToFirstOut (resolveLocation env input).1 := by
  simp only [resolveOneLocation]
  split <;> rfl

/-- C4 (counterexample): with a coordinates-only query whose cascade yields
one genuine record, a timezone lookup that succeeds without a `timeZoneId`
makes the aggregation yield `null` in place of the record (and swallow the
situation silently), instead of yielding the record unchanged as claimed. -/
theorem C4_timezone_null_drops_record :
    (evRecs (resolveLocation env4c (some (canonS inp4c))).1).all Option.isSome = true ∧
    evRecs (resolveLocationsInner env4c (some inp4c)).1 = [none] ∧
    (resolveLocationsInner env4c (some inp4c)).2 = none := by
  refine ⟨by decide, by decide, by decide⟩

/-- C4 (amended): during aggregate resolution, a thrown timezone-enrichment
failure is swallowed and the record is yielded exactly as the unenriched
record would be; a thrown country-info failure is swallowed and the record is
yielded in its post-mutation state (getCountryInfo may have set `id` before
failing); no enrichment error ever escapes the aggregation loop.  However,
when the timezone lookup succeeds but returns no `timeZoneId`, `getTimezone`
returns null, and the loop yields null in place of the record. -/
theorem C4_enrichment_swallowed :
    (∀ (env : Env) (r : Loc), r.timezone = none → (getTimezone env r).2 = .error () →
        (enrichYield env r).2 = locationFromQuery (some r)) ∧
    (∀ (env : Env) (r : Loc), r.timezone ≠ none →
        (r.languages.isNone || r.phoneCode.isNone) = true →
        (enrichYield env r).2 = locationFromQuery (some (getCountryInfo r).1)) ∧
    (∀ (env : Env) (r : Loc), r.timezone = none → (getTimezone env r).2 = .ok none →
        (enrichYield env r).2 = .ok none) ∧
    (∀ (env : Env) (recs : List (Option Loc)) (seen : List (Option JVal)),
        (innerLoop env seen recs).2 = none) := by
  refine ⟨?_, ?_, ?_, fun env recs seen => innerLoop_err env recs seen⟩
  · intro env r h1 h2
    unfold enrichYield
    rw [if_pos h1]
    rcases hgt : getTimezone env r with ⟨t, e⟩
    rw [hgt] at h2
    simp only at h2
    subst h2
    rfl
  · intro env r h1 h2
    unfold enrichYield countryStep
    rw [if_neg h1]
    simp only [h2, if_true]
  · intro env r h1 h2
    unfold enrichYield
    rw [if_pos h1]
    rcases hgt : getTimezone env r with ⟨t, e⟩
    rw [hgt] at h2
    simp only at h2
    subst h2
    rfl

/-- C4 (witness): the three swallow/null cases and the no-error property at
concrete inputs. -/
theorem C4_enrichment_swallowed_witness :
    (enrichYield env4e rec4tz).2 = locationFromQuery (some rec4tz) ∧
    (enrichYield env4e rec4cn).2 = locationFromQuery (some (getCountryInfo rec4cn).1) ∧
    (enrichYield env4c rec4tz).2 = .ok none ∧
    (innerLoop env4e [] [some rec4tz]).2 = none :=
  ⟨C4_enrichment_swallowed.1 env4e rec4tz (by decide) (by decide),
   C4_enrichment_swallowed.2.1 env4e rec4cn (by decide) (by decide),
   C4_enrichment_swallowed.2.2.1 env4c rec4tz (by decide) (by decide),
   C4_enrichment_swallowed.2.2.2 env4e [some rec4tz] []⟩

/-- C10: the aggregation loop yields, in order, the enrichment image of the
cascade records truncated at the first falsy record and deduplicated
first-occurrence-wise by the raw `id` key — identifier-less records all
share the key `none`, so only the first of them survives; and the records
after a falsy record contribute nothing. -/
theorem C10_dedup_by_raw_id :
    (∀ (env : Env) (recs : List (Option Loc)),
        evRecs (innerLoop env [] recs).1 =
          (dedupKeyed [] ((recs.takeWhile Option.isSome).filterMap (fun x => x))).map
            (enrichOut env)) ∧
    (∀ (env : Env) (seen : List (Option JVal)) (pre post : List (Option Loc)),
        evRecs (innerLoop env seen (pre ++ none :: post)).1 =
          evRecs (innerLoop env seen pre).1) ∧
    (∀ (env : Env) (a b : Loc) (rest : List (Option Loc)),
        a.id = none → b.id = none →
        evRecs (innerLoop env [] (some a :: some b :: rest)).1 =
          evRecs (innerLoop env [] (some a :: rest)).1) := by
  refine ⟨fun env recs => innerLoop_records env recs [], ?_, ?_⟩
  · intro env seen pre post
    rw [innerLoop_records, innerLoop_records]
    have htw : ((pre ++ none :: post).takeWhile Option.isSome) =
        pre.takeWhile Option.isSome := by
      induction pre with
      | nil => simp [List.takeWhile_cons]
      | cons x t ihp => cases x <;> simp [List.takeWhile_cons, ihp]
    rw [htw]
  · intro env a b rest ha hb
    rw [innerLoop_records, innerLoop_records]
    have hc1 : b.id ∈ ([a.id] : List (Option JVal)) := by
      rw [ha, hb]
      exact List.mem_singleton.mpr rfl
    simp [List.takeWhile_cons, dedupKeyed, hc1, ha, hb]

/-- C10 (witness): of two identifier-less records, the second is dropped. -/
theorem C10_dedup_by_raw_id_witness :
    evRecs (innerLoop env10w [] [some recNoId1, some recNoId2]).1 =
      evRecs (innerLoop env10w [] [some recNoId1]).1 :=
  C10_dedup_by_raw_id.2.2 env10w recNoId1 recNoId2 [] rfl rfl

/-- C1 (counterexample): with the aggregate cache entry of the query
populated, `resolveLocations` yields the cached record but
`resolveOneLocation` — which iterates `resolveLocation`, not
`resolveLocations` — returns a live-geocoded record instead: it is not the
first element of `resolveLocations` and has passed through neither the
aggregate-cache read nor the enrichment pipeline. -/
theorem C1_resolveOne_differs_from_resolveMany :
    evRecs (resolveLocations env1c (some inp1c)).1 = [some rec1C] ∧
    (resolveOneLocation env1c (some inp1c)).2 ≠
      .ok ((evRecs (resolveLocations env1c (some inp1c)).1).headD none) := by
  refine ⟨by decide, by decide⟩

/-- C1 (amended): `resolveOneLocation` returns the first element of the raw
cascade `resolveLocation` (null when the cascade is empty) and consumes the
cascade trace only up to that first yield (a prefix containing at most one
record), bypassing the aggregate cache, deduplication and enrichment of
`resolveLocations`; the corresponding first element of the uncached aggregate
sequence is the enrichment image `enrichOut` of that same first cascade
record. -/
theorem C1_resolveOne_first_of_raw_cascade :
    (∀ (env : Env) (input : Option Loc) (r : Option Loc) (rest : List (Option Loc)),
        evRecs (resolveLocation env input).1 = r :: rest →
        (resolveOneLocation env input).2 = .ok r) ∧
    (∀ (env : Env) (input : Option Loc),
        ∃ u, (resolveLocation env input).1 = (resolveOneLocation env input).1 ++ u) ∧
    (∀ (env : Env) (input : Option Loc),
        (evRecs (resolveOneLocation env input).1).length ≤ 1) ∧
    (∀ (env : Env) (q : Loc) (r : Loc) (rest : List (Option Loc)),
        evRecs (resolveLocation env (some (canonS q))).1 = some r :: rest →
        (evRecs (resolveLocationsInner env (some q)).1).head? =
          some (enrichOut env r)) := by
  refine ⟨?_, ?_, ?_, ?_⟩
  · intro env input r rest h
    unfold resolveOneLocation
    simp only [h]
  · intro env input
    rw [resolveOneLocation_trace]
    exact takeToFirstOut_suffix _
  · intro env input
    rw [resolveOneLocation_trace]
    exact takeToFirstOut_recs_le _
  · intro env q r rest h
    unfold resolveLocationsInner
    simp only [queryFromLocation, Option.map]
    rw [h]
    rw [evRecs_append, evRecs_effsOnly, innerLoop_records]
    simp [List.takeWhile_cons, dedupKeyed]

/-- C1 (witness): the amended statement at a concrete country-only query. -/
theorem C1_resolveOne_first_of_raw_cascade_witness :
    (resolveOneLocation envW (some inpW)).2 = .ok recW ∧
    (∃ u, (resolveLocation envW (some inpW)).1 =
      (resolveOneLocation envW (some inpW)).1 ++ u) ∧
    (evRecs (resolveOneLocation envW (some inpW)).1).length ≤ 1 ∧
    (evRecs (resolveLocationsInner envW (some inpW)).1).head? =
      some (enrichOut envW rW) :=
  ⟨C1_resolveOne_first_of_raw_cascade.1 envW (some inpW) recW restW (by decide),
   C1_resolveOne_first_of_raw_cascade.2.1 envW (some inpW),
   C1_resolveOne_first_of_raw_cascade.2.2.1 envW (some inpW),
   C1_resolveOne_first_of_raw_cascade.2.2.2 envW inpW rW restW2 (by decide)⟩

/-- C7: for the query `{ipAddress: "8.8.8.8"}` with `resolveIpWithGeo` not
set by the caller, against any environment whose GeoIP database answers, the
cascade performs exactly the IP strategy call and the database lookup —
no Google request of any kind and no cache access — and yields exactly one
record, whose `id` and `_id` equal the cache-key hash of the canonicalized
query. -/
theorem C7_ip_only_no_geocode (env : Env) (g : GeoIpRes)
    (hpr : env.resolvePriority = defaultResolvePriorities)
    (hip : env.geoip "8.8.8.8" = .ok g) :
    ∃ rec : Loc,
      resolveLocation env (some ipOnlyQuery) =
        ([Ev.eff (.strategyCall "ipAddress"), Ev.eff (.geoipLookup "8.8.8.8"),
          Ev.out (some rec)], none) ∧
      rec.id = some (cacheKey (canonS ipOnlyQuery)) ∧
      rec._id = some (cacheKey (canonS ipOnlyQuery)) := by
  have hq : canonS ipOnlyQuery =
      { ipAddress := some "8.8.8.8", resolveIpWithGeo := some true } := by decide
  have h1 : ipOnlyQuery.location = none := rfl
  have h2 : ipOnlyQuery.id = none := rfl
  have ha : truthyS (some "8.8.8.8") = true := by decide
  have hb : truthyS (none : Option String) = false := rfl
  have hc : truthyJ (none : Option JVal) = false := rfl
  have hd : truthyB (some true) = true := rfl
  simp only [resolveLocation, hpr, defaultResolvePriorities]
  simp [cascadeGo, resolveLocationByIpAddress, hq, hip, h1, h2, ha, hb, hc, hd,
        pfieldTruthy]

/-- C7 (witness): the concrete environment whose database knows 8.8.8.8. -/
theorem C7_ip_only_no_geocode_witness :
    ∃ rec : Loc,
      resolveLocation env7w (some ipOnlyQuery) =
        ([Ev.eff (.strategyCall "ipAddress"), Ev.eff (.geoipLookup "8.8.8.8"),
          Ev.out (some rec)], none) ∧
      rec.id = some (cacheKey (canonS ipOnlyQuery)) ∧
      rec._id = some (cacheKey (canonS ipOnlyQuery)) :=
  C7_ip_only_no_geocode env7w g7w rfl (by decide)

end EtomonLocation
